import Mathlib

/-!
Verification development for the cheri-dwarf-scanner struct layout scraper.

The definitions below are a shallow embedding of the C++ sources:
  * struct_layout_scraper.cc (StructLayoutScraper)
  * src/log.cc and the log header (Logger, LogAs, the LOG macro)
  * the SQL schema, view and queries issued by InitSchema.

Machine integers are modelled as Nat; the one place where unsigned
wrap-around can occur (the legacy bit-offset fold in VisitMember) is
modelled explicitly modulo 2^64.  External collaborators (the capability
encoder and the DWARF reader) are parameters of the functions that call
them, mirroring the dwsrc_ indirection in the source.
-/

namespace CheriScan

/-- Row of the struct_type table (struct StructTypeRow). The has_imprecise
column defaults to 0 in the schema and the in-memory row starts false. -/
structure StructTypeRow where
  id : Nat
  file : String
  line : Nat
  name : String
  size : Nat
  flags : Nat
  has_imprecise : Bool
deriving Repr, DecidableEq

/-- Row of the struct_member table (struct StructMemberRow). -/
structure StructMemberRow where
  id : Nat
  owner : Nat
  nested : Option Nat
  name : String
  type_name : String
  line : Nat
  byte_size : Nat
  bit_size : Option Nat
  byte_offset : Nat
  bit_offset : Option Nat
  flags : Nat
  array_items : Option Nat
deriving Repr, DecidableEq

/-- In-memory row destined for the member_bounds table (struct
MemberBoundsRow); the id column is assigned by the database on insert and
is therefore not part of the in-memory value. -/
structure MemberBoundsRow where
  owner : Nat
  member : Nat
  name : String
  offset : Nat
  base : Nat
  top : Nat
  is_imprecise : Bool
  required_precision : Nat
deriving Repr, DecidableEq

/-- Per-type accumulator entry (struct StructTypeEntry) kept in
struct_type_map_ between VisitCommon and EndUnit. -/
structure StructTypeEntry where
  data : StructTypeRow
  members : List StructMemberRow
  flattened_layout : List MemberBoundsRow
  skip_postprocess : Bool
deriving Repr, DecidableEq

/-- Required sub-object length for a member, from line 639 of
struct_layout_scraper.cc: req_length is byte_size plus one when the
bit_size optional holds a value (the C++ condition is the truthiness of
the std::optional, i.e. presence, not the value). -/
def requiredLength (m : StructMemberRow) : Nat :=
  m.byte_size + (if m.bit_size.isSome then 1 else 0)

/-- Construction of one mb_row in FindSubobjectCapabilities (lines
634-646).  repRange models dwsrc_->FindRepresentableRange and reqPrec
models dwsrc_->FindRequiredPrecision; both are external collaborators. -/
def mkMemberBounds (repRange : Nat → Nat → Nat × Nat) (reqPrec : Nat → Nat → Nat)
    (entryId : Nat) (offset : Nat) (pfx : String) (m : StructMemberRow) :
    MemberBoundsRow :=
  let off := offset + m.byte_offset
  let bl := repRange off (requiredLength m)
  { owner := entryId
    member := m.id
    name := pfx ++ "::" ++ m.name
    offset := off
    base := bl.1
    top := bl.1 + bl.2
    is_imprecise := decide (off ≠ bl.1 ∨ bl.2 ≠ requiredLength m)
    required_precision := reqPrec off (requiredLength m) }

/-- Lookup in the entry_by_id map passed to FindSubobjectCapabilities. -/
def lookupEntry (env : List (Nat × StructTypeEntry)) (k : Nat) :
    Option StructTypeEntry :=
  (env.find? (fun p => p.1 == k)).map Prod.snd

/-- The FlattenedLayout lambda of FindSubobjectCapabilities (lines
631-670).  Every row is appended to the OUTER entry's layout: the lambda
captures the outer entry, so even the recursive call made for a nested
type contributes rows here, carrying the outer owner id but the nested
type's own name as the path root.  The merge loop at lines 660-666 copies
each nested row and then assigns offset and name on a local copy
(auto flat_curr, not a reference), so the rows actually emitted are the
nested rows unchanged.  The fuel argument is an artifact of the
embedding; the source recursion terminates because type containment is
acyclic, and any fuel larger than the total number of members suffices. -/
def flattenMembers (repRange : Nat → Nat → Nat × Nat) (reqPrec : Nat → Nat → Nat)
    (env : List (Nat × StructTypeEntry)) (entryId : Nat) :
    Nat → List StructMemberRow → Nat → String → List MemberBoundsRow
  | _, [], _, _ => []
  | 0, _ :: _, _, _ => []
  | fuel + 1, m :: rest, offset, pfx =>
    let mb_row := mkMemberBounds repRange reqPrec entryId offset pfx m
    let nestedRows :=
      match m.nested with
      | none => []
      | some nid =>
        match lookupEntry env nid with
        | none => []
        | some nested =>
          let recRows :=
            if nested.flattened_layout.isEmpty then
              flattenMembers repRange reqPrec env entryId fuel nested.members 0
                nested.data.name
            else []
          recRows ++ nested.flattened_layout
    nestedRows ++ [mb_row] ++
      flattenMembers repRange reqPrec env entryId fuel rest offset pfx

/-- StructLayoutScraper::FindSubobjectCapabilities (lines 621-672).  If
the layout was already produced the entry is returned untouched.  The
statement at line 648 reads entry.data.has_imprecise without assigning
to it, so the data row (and in particular has_imprecise) is never
modified. -/
def FindSubobjectCapabilities (repRange : Nat → Nat → Nat × Nat)
    (reqPrec : Nat → Nat → Nat) (env : List (Nat × StructTypeEntry))
    (fuel : Nat) (entry : StructTypeEntry) : StructTypeEntry :=
  if entry.flattened_layout.isEmpty then
    { entry with
      flattened_layout :=
        flattenMembers repRange reqPrec env entry.data.id fuel entry.members 0
          entry.data.name }
  else entry

/-- Truncated subtraction modulo 2^64, modelling the unsigned long
arithmetic of the bit-offset fold in VisitMember. -/
def u64sub (a b : Nat) : Nat :=
  (a % 2 ^ 64 + (2 ^ 64 - b % 2 ^ 64)) % 2 ^ 64

/-- Offset computation of StructLayoutScraper::VisitMember, lines 475-497.
Inputs are the relevant DIE attributes: byte_size is the member size after
the DW_AT_byte_size override, bit_size is DW_AT_bit_size, dataOffset is
DW_AT_data_member_location with default 0, bitDataOffset is
DW_AT_data_bit_offset and oldBitOffset is the legacy DW_AT_bit_offset.
Returns the stored pair (byte_offset, bit_offset). -/
def visitMemberOffsets (littleEndian : Bool) (byte_size : Nat)
    (bit_size : Option Nat) (dataOffset : Nat) (bitDataOffset : Option Nat)
    (oldBitOffset : Option Nat) : Nat × Option Nat :=
  let bitOffset0 : Option Nat :=
    match bitDataOffset with
    | some b => some (dataOffset * 8 + b)
    | none => none
  let bitOffset : Option Nat :=
    match oldBitOffset with
    | some old =>
      if littleEndian then
        let shift := old + bit_size.getD 0
        some (u64sub (bitOffset0.getD 0 + byte_size * 8) shift)
      else
        some (bitOffset0.getD 0 + old)
    | none => bitOffset0
  match bitOffset with
  | some p => (p / 8, some (p % 8))
  | none => (dataOffset, none)

/-- Attributes of a record DIE that drive the early control flow of
VisitCommon. -/
structure RecordDie where
  declaration : Bool
  specification : Bool
  byte_size : Option Nat
deriving Repr, DecidableEq

/-- Outcome of the guard sequence at the head of
StructLayoutScraper::VisitCommon (lines 381-410). -/
inductive VisitOutcome where
  | fatalError : VisitOutcome
  | skipped : VisitOutcome
  | skippedWithWarning : VisitOutcome
  | proceed : Nat → VisitOutcome
deriving Repr, DecidableEq

/-- Guard sequence of VisitCommon: declarations are skipped first and
return nullopt; then a DW_AT_specification raises the fatal error; then a
missing DW_AT_byte_size logs a warning and returns nullopt; otherwise the
visit proceeds with the extracted size. -/
def visitCommonOutcome (die : RecordDie) : VisitOutcome :=
  if die.declaration then VisitOutcome.skipped
  else if die.specification then VisitOutcome.fatalError
  else
    match die.byte_size with
    | none => VisitOutcome.skippedWithWarning
    | some sz => VisitOutcome.proceed sz

/-- Row of the member_bounds table as stored in the database, with the
id assigned on insert (schema lines 168-189). -/
structure MemberBoundsTableRow where
  id : Nat
  owner : Nat
  name : String
  member : Nat
  offset : Nat
  base : Nat
  top : Nat
  is_imprecise : Bool
  precision : Option Nat
deriving Repr, DecidableEq

/-- SQLite truthiness of a nullable integer column: NULL and 0 are
false, everything else is true (the IIF condition in the alias_bounds
view). -/
def sqlTruthy (v : Option Nat) : Bool := v.getD 0 != 0

/-- SQLite LIKE with a pattern of the form x || char 37, as used by
the alias_bounds view to test whether one flattened name extends the
other.  The names emitted by the scraper contain no LIKE wildcard
characters, for which such a pattern is exactly an ASCII
case-insensitive starts-with test; LIKE is case-insensitive by
default in SQLite, hence the toLower folding. -/
def sqlLikeStartsWith : List Char → List Char → Bool
  | [], _ => true
  | _ :: _, [] => false
  | c :: pat, d :: s => (c.toLower == d.toLower) && sqlLikeStartsWith pat s

/-- One row of the impl CTE inside the alias_bounds view (schema lines
218-236): a candidate subobject row mb paired with a candidate aliased
row alb, joined with alb's struct_member alm. -/
structure AliasBoundsImpl where
  owner : Nat
  id : Nat
  alias_id : Nat
  name : String
  alias_name : String
  base : Nat
  check_base : Nat
  top : Nat
  check_top : Nat
deriving Repr, DecidableEq

/-- The impl CTE of the alias_bounds view: member_bounds alb joined with
struct_member alm on alb.member = alm.id, joined with member_bounds mb on
mb.owner = alb.owner and mb.id distinct from alb.id. -/
def aliasBoundsImpl (member_bounds : List MemberBoundsTableRow)
    (struct_member : List StructMemberRow) : List AliasBoundsImpl :=
  member_bounds.flatMap (fun alb =>
    (struct_member.filter (fun alm => alm.id == alb.member)).flatMap (fun alm =>
      (member_bounds.filter (fun mb =>
          mb.owner == alb.owner && mb.id != alb.id)).map (fun mb =>
        { owner := mb.owner
          id := mb.id
          alias_id := alb.id
          name := mb.name
          alias_name := alb.name
          base := mb.base
          check_base := alb.offset
          top := mb.top
          check_top := alb.offset + alm.byte_size +
            (if sqlTruthy alm.bit_size then 1 else 0) })))

/-- The alias_bounds view (schema lines 218-242): the impl CTE filtered
by the overlap test and the two mutual LIKE starts-with suppressions. -/
def aliasBoundsView (member_bounds : List MemberBoundsTableRow)
    (struct_member : List StructMemberRow) : List AliasBoundsImpl :=
  (aliasBoundsImpl member_bounds struct_member).filter (fun r =>
    decide (max r.check_base r.base < min r.check_top r.top) &&
    !(sqlLikeStartsWith r.alias_name.data r.name.data) &&
    !(sqlLikeStartsWith r.name.data r.alias_name.data))

/-- The find_imprecise_alias_query_ insert (lines 247-251): rows of the
alias_bounds view restricted to the given owner, projected to the
(subobj, alias) pairs inserted into subobject_alias. -/
def findImpreciseAlias (member_bounds : List MemberBoundsTableRow)
    (struct_member : List StructMemberRow) (owner : Nat) : List (Nat × Nat) :=
  ((aliasBoundsView member_bounds struct_member).filter
    (fun r => r.owner == owner)).map (fun r => (r.id, r.alias_id))

/-- Log severity levels from the log header; the underlying integer
values grow from kError = 0 to kTrace = 4 and the filter compares
those values. -/
inductive LogLevel where
  | kError : LogLevel
  | kWarn : LogLevel
  | kInfo : LogLevel
  | kDebug : LogLevel
  | kTrace : LogLevel
deriving Repr, DecidableEq

/-- Underlying integer value of the LogLevel enum. -/
def LogLevel.toNat : LogLevel → Nat
  | .kError => 0
  | .kWarn => 1
  | .kInfo => 2
  | .kDebug => 3
  | .kTrace => 4

/-- A log message: level plus assembled text (struct LogMessage). -/
structure LogMessage where
  level : LogLevel
  message : String
deriving Repr, DecidableEq

/-- Logger state: the level filter and the attached sinks.  Sinks are
identified by a number; Emit is modelled as returning the list of
(sink, message) dispatches it performs. -/
structure Logger where
  level_ : LogLevel
  sinks_ : List Nat
deriving Repr, DecidableEq

/-- The private Logger constructor, log.cc line 84: the member
initializer hard-codes kInfo and the level argument is unused. -/
def Logger.ctor (level : LogLevel) : Logger :=
  { level_ := LogLevel.kInfo, sinks_ := [] }

/-- Logger::AddSink appends a sink. -/
def Logger.AddSink (lg : Logger) (s : Nat) : Logger :=
  { lg with sinks_ := lg.sinks_ ++ [s] }

/-- Logger::SetLevel replaces the level filter. -/
def Logger.SetLevel (lg : Logger) (lv : LogLevel) : Logger :=
  { lg with level_ := lv }

/-- Logger::Get on first use: constructs the global logger with kInfo
and attaches no sink. -/
def Logger.Get : Logger := Logger.ctor LogLevel.kInfo

/-- Logger::Default on first use: constructs the global logger with
kInfo and attaches the console sink (modelled as sink 0). -/
def Logger.Default : Logger := (Logger.ctor LogLevel.kInfo).AddSink 0

/-- Logger::Emit, log.cc lines 98-105: drop the message when its level
exceeds the filter, otherwise dispatch it to every sink in order. -/
def Logger.Emit (lg : Logger) (msg : LogMessage) : List (Nat × LogMessage) :=
  if msg.level.toNat > lg.level_.toNat then []
  else lg.sinks_.map (fun s => (s, msg))

/-- RAII log handle state (class LogAs). -/
structure LogAs where
  level_ : LogLevel
  stream_ : String
  consumed_flag_ : Bool
deriving Repr, DecidableEq

/-- LogAs constructor: consumed_flag_ starts false. -/
def LogAs.new (level : LogLevel) : LogAs :=
  { level_ := level, stream_ := "", consumed_flag_ := false }

/-- LogAs conversion to bool, log.cc lines 117-121: returns the old
flag and then sets it. -/
def LogAs.boolConv (h : LogAs) : Bool × LogAs :=
  (h.consumed_flag_, { h with consumed_flag_ := h.consumed_flag_ || true })

/-- Streaming into the handle appends to the buffered message. -/
def LogAs.streamAppend (h : LogAs) (s : String) : LogAs :=
  { h with stream_ := h.stream_ ++ s }

/-- LogAs destructor, log.cc lines 110-113: when the flag was set, the
assembled message is passed to Logger::Emit; the returned option is the
message handed to Emit, none when no Emit call happens. -/
def LogAs.emitOnDrop (h : LogAs) : Option LogMessage :=
  if h.consumed_flag_ then some { level := h.level_, message := h.stream_ }
  else none

/-- The for loop of the LOG macro (log header lines 145-148): evaluate
the negated bool conversion; while it is true run the body (streaming
the message text), re-testing after each iteration.  Returns how many
times the body ran and the final handle state.  Fuel bounds the
iteration count for the embedding; two steps are always enough. -/
def logMacroLoop : Nat → LogAs → String → Nat × LogAs
  | 0, h, _ => (0, h)
  | fuel + 1, h, body =>
    let c := h.boolConv
    if c.1 then (0, c.2)
    else
      let next := logMacroLoop fuel (c.2.streamAppend body) body
      (next.1 + 1, next.2)

/-- A full LOG(level) statement: construct the handle, run the macro
loop, then destroy the handle.  Returns the body execution count and
the message passed to Logger::Emit at destruction, if any. -/
def runLOG (fuel : Nat) (level : LogLevel) (body : String) :
    Nat × Option LogMessage :=
  let start := LogAs.new level
  let fin := logMacroLoop fuel start body
  (fin.1, fin.2.emitOnDrop)

/-! Concrete fixtures shared by the theorems below. -/

/-- Identity capability encoder: every requested range is already
representable. -/
def idRepRange : Nat → Nat → Nat × Nat := fun b l => (b, l)

/-- Constant precision collaborator. -/
def onePrec : Nat → Nat → Nat := fun _ _ => 1

/-- Capability encoder that rounds every request out to the interval
from 0 to 16, standing in for a compressed encoding that cannot
represent the request. -/
def roundRepRange : Nat → Nat → Nat × Nat := fun _ _ => (0, 16)

/-- A plain int member at the given offset and size. -/
def memberInt (i : Nat) (nm : String) (off sz : Nat) : StructMemberRow :=
  { id := i, owner := 0, nested := none, name := nm, type_name := "int",
    line := 1, byte_size := sz, bit_size := none, byte_offset := off,
    bit_offset := none, flags := 0, array_items := none }

/-- A one-member struct whose member bounds are imprecise under
roundRepRange. -/
def entryImprecise : StructTypeEntry :=
  { data := { id := 3, file := "s.c", line := 1, name := "S", size := 8,
              flags := 1, has_imprecise := false }
    members := [memberInt 7 "x" 1 4]
    flattened_layout := []
    skip_postprocess := false }

/-- A member bounds row for field a of a nested type Inner, as produced
when Inner itself was flattened first. -/
def innerBoundsRow : MemberBoundsRow :=
  { owner := 2, member := 21, name := "Inner::a", offset := 0, base := 0,
    top := 4, is_imprecise := false, required_precision := 1 }

/-- The Inner entry with its flattened layout already produced. -/
def innerEntryFlattened : StructTypeEntry :=
  { data := { id := 2, file := "s.c", line := 1, name := "Inner", size := 8,
              flags := 1, has_imprecise := false }
    members := [memberInt 21 "a" 0 4]
    flattened_layout := [innerBoundsRow]
    skip_postprocess := false }

/-- An outer member of type Inner at byte offset 4. -/
def memberNestedInner : StructMemberRow :=
  { memberInt 11 "inner" 4 8 with nested := some 2, type_name := "Inner" }

/-- Scenario D nested type Inner with two int fields, not yet
flattened. -/
def innerEntryD : StructTypeEntry :=
  { data := { id := 2, file := "s.c", line := 1, name := "Inner", size := 8,
              flags := 1, has_imprecise := false }
    members := [memberInt 21 "a" 0 4, memberInt 22 "b" 4 4]
    flattened_layout := []
    skip_postprocess := false }

/-- Scenario D outer member of type Inner at byte offset 0. -/
def memberInnerD : StructMemberRow :=
  { memberInt 11 "inner" 0 8 with nested := some 2, type_name := "Inner" }

/-- Scenario D outer type with an Inner field and a trailing int. -/
def outerEntryD : StructTypeEntry :=
  { data := { id := 1, file := "s.c", line := 2, name := "Outer", size := 12,
              flags := 1, has_imprecise := false }
    members := [memberInnerD, memberInt 12 "c" 8 4]
    flattened_layout := []
    skip_postprocess := false }

/-- A member carrying DW_AT_bit_size with value zero: the optional is
engaged but the bit width is not positive. -/
def memberZeroWidthBitfield : StructMemberRow :=
  { memberInt 10 "bf" 0 4 with bit_size := some 0 }

/-! Claim theorems. -/

/-- C1: evaluating FindSubobjectCapabilities on a one-member struct whose
bounds the encoder rounds shows that a row is computed imprecise while the
owner entry keeps has_imprecise false: the marking statement at line 648
of struct_layout_scraper.cc is an expression with no effect, so
has_imprecise is never set (and the struct_type insert at lines 102-105
does not carry the column either). -/
theorem C1_imprecise_row_but_flag_never_set :
    ((FindSubobjectCapabilities roundRepRange onePrec [] 4
        entryImprecise).flattened_layout.any (fun r => r.is_imprecise)) = true ∧
    (FindSubobjectCapabilities roundRepRange onePrec [] 4
        entryImprecise).data.has_imprecise = false := by
  decide

/-- C2: evaluating the member loop on an outer member of nested type
Inner at byte offset 4, with Inner already flattened, shows that the
nested row is emitted with its name and offset (and owner) unchanged:
the offset increment and name rewrite at lines 663-665 are applied to a
local copy of the row already pushed, so the emitted row is neither
shifted by the outer offset plus the member offset nor reprefixed. -/
theorem C2_nested_rows_emitted_unchanged :
    (flattenMembers idRepRange onePrec [(2, innerEntryFlattened)] 1 4
        [memberNestedInner] 0 "Outer").map
      (fun r => (r.name, r.offset, r.owner)) =
    [("Inner::a", 0, 2), ("Outer::inner", 4, 1)] := by
  decide

/-- C3: a member DIE with DW_AT_data_member_location 4, legacy
DW_AT_bit_offset 0, DW_AT_bit_size 8 and byte size 4 on a little-endian
target is stored at byte_offset 3: the legacy fold starts from the
engaged bit position only (which is absent here, defaulting to 0) and
drops the data member location entirely, instead of folding into
P = location * 8 = 32 which would give byte_offset 7. -/
theorem C3_legacy_fold_drops_member_location :
    visitMemberOffsets true 4 (some 8) 4 none (some 0) = (3, some 0) := by
  rfl

/-- C4 counterexample: for a member whose DW_AT_bit_size attribute is
present with value 0, the extra byte is added (required length 5, seen
as top minus base under an exact encoder) even though bit_size is not
greater than zero, and is_imprecise stays false; the claimed
biconditional, read with required_length = byte_size plus one only when
bit_size is greater than zero, is therefore false at this row. -/
theorem C4_counterexample_zero_width_bitfield :
    ¬ (((mkMemberBounds idRepRange onePrec 1 0 "S"
            memberZeroWidthBitfield).is_imprecise = true) ↔
       ((mkMemberBounds idRepRange onePrec 1 0 "S"
            memberZeroWidthBitfield).base ≠
          (mkMemberBounds idRepRange onePrec 1 0 "S"
            memberZeroWidthBitfield).offset ∨
        (mkMemberBounds idRepRange onePrec 1 0 "S"
            memberZeroWidthBitfield).top -
          (mkMemberBounds idRepRange onePrec 1 0 "S"
            memberZeroWidthBitfield).base ≠
          memberZeroWidthBitfield.byte_size +
            (if 0 < memberZeroWidthBitfield.bit_size.getD 0 then 1
             else 0))) := by
  decide

/-- C4 amended: for every flattened member row built by the scraper, the
required length is the member's byte size plus one exactly when the
bit_size attribute is present (regardless of its value), and the row is
imprecise exactly when base differs from offset or top minus base
differs from that required length. -/
theorem C4_required_length_and_imprecision (repRange : Nat → Nat → Nat × Nat)
    (reqPrec : Nat → Nat → Nat) (entryId offset : Nat) (pfx : String)
    (m : StructMemberRow) :
    (mkMemberBounds repRange reqPrec entryId offset pfx m).top -
        (mkMemberBounds repRange reqPrec entryId offset pfx m).base =
      (repRange (offset + m.byte_offset)
        (m.byte_size + (if m.bit_size.isSome then 1 else 0))).2 ∧
    ((mkMemberBounds repRange reqPrec entryId offset pfx m).is_imprecise =
        true ↔
      ((mkMemberBounds repRange reqPrec entryId offset pfx m).base ≠
          (mkMemberBounds repRange reqPrec entryId offset pfx m).offset ∨
        (mkMemberBounds repRange reqPrec entryId offset pfx m).top -
            (mkMemberBounds repRange reqPrec entryId offset pfx m).base ≠
          m.byte_size + (if m.bit_size.isSome then 1 else 0))) := by
  constructor
  · simp [mkMemberBounds, requiredLength]
  · simp only [mkMemberBounds, requiredLength, Nat.add_sub_cancel_left,
      decide_eq_true_eq]
    constructor
    · rintro (h | h)
      · exact Or.inl (Ne.symm h)
      · exact Or.inr h
    · rintro (h | h)
      · exact Or.inl (Ne.symm h)
      · exact Or.inr h

/-- C5: whenever the encoder answer (b, l) for the member's cumulative
offset and required length satisfies b at most the offset and covers the
requested interval, the stored row has base at most offset and top at
least offset plus required length. -/
theorem C5_row_bounds_cover (repRange : Nat → Nat → Nat × Nat)
    (reqPrec : Nat → Nat → Nat) (entryId offset : Nat) (pfx : String)
    (m : StructMemberRow) (b l : Nat)
    (henc : repRange (offset + m.byte_offset) (requiredLength m) = (b, l))
    (hbase : b ≤ offset + m.byte_offset)
    (hcover : offset + m.byte_offset + requiredLength m ≤ b + l) :
    (mkMemberBounds repRange reqPrec entryId offset pfx m).base ≤
        (mkMemberBounds repRange reqPrec entryId offset pfx m).offset ∧
      (mkMemberBounds repRange reqPrec entryId offset pfx m).offset +
          requiredLength m ≤
        (mkMemberBounds repRange reqPrec entryId offset pfx m).top := by
  simp only [mkMemberBounds, henc]
  exact ⟨hbase, hcover⟩

/-- C5 witness: the covering hypotheses hold for the identity encoder on
a plain int member, and the conclusion follows by the theorem. -/
theorem C5_row_bounds_cover_witness :
    (mkMemberBounds idRepRange onePrec 1 0 "S" (memberInt 7 "x" 0 4)).base ≤
        (mkMemberBounds idRepRange onePrec 1 0 "S" (memberInt 7 "x" 0 4)).offset ∧
      (mkMemberBounds idRepRange onePrec 1 0 "S" (memberInt 7 "x" 0 4)).offset +
          requiredLength (memberInt 7 "x" 0 4) ≤
        (mkMemberBounds idRepRange onePrec 1 0 "S" (memberInt 7 "x" 0 4)).top :=
  C5_row_bounds_cover idRepRange onePrec 1 0 "S" (memberInt 7 "x" 0 4) 0 4
    (by rfl) (by decide) (by decide)

/-- C7: running FindSubobjectCapabilities on scenario D (struct Outer
with a nested Inner of two ints and a trailing int c) produces the rows
in the order nested expansion first, then the member's own row, then the
following member; but the nested rows keep Inner's own prefix instead of
the claimed Outer::inner qualified names, because the recursive call
flattens the nested type under its own name directly into the outer
entry and the renaming pass touches only a discarded copy. -/
theorem C7_scenario_d_row_names :
    ((FindSubobjectCapabilities idRepRange onePrec
        [(1, outerEntryD), (2, innerEntryD)] 6
        outerEntryD).flattened_layout.map (fun r => r.name)) =
    ["Inner::a", "Inner::b", "Outer::inner", "Outer::c"] := by
  decide

/-- Helper: the literal starts-with test accepts every extension of the
pattern, so a genuine string prefix always triggers the LIKE
suppression. -/
theorem sqlLikeStartsWith_append (a t : List Char) :
    sqlLikeStartsWith a (a ++ t) = true := by
  induction a with
  | nil => rfl
  | cons c a ih => simp [sqlLikeStartsWith, ih]

/-- Helper: the SQLite IIF truthiness of a nullable integer column picks
1 exactly when the column is non-NULL and nonzero. -/
theorem sqlTruthy_ite (v : Option Nat) :
    (if sqlTruthy v then (1 : Nat) else 0) =
      if v.getD 0 ≠ 0 then 1 else 0 := by
  rcases v with _ | n
  · rfl
  · by_cases h : n = 0 <;> simp [sqlTruthy, h]

/-- C6: every pair the find_imprecise_alias query inserts into
subobject_alias comes from two member_bounds rows of the same owner with
distinct ids whose extents overlap, max(sub.base, al.offset) below
min(sub.top, al.offset + size + extra byte for a nonzero bit_size of the
joined struct_member row), and neither flattened name is a string prefix
of the other. -/
theorem C6_alias_pairs_sound (member_bounds : List MemberBoundsTableRow)
    (struct_member : List StructMemberRow) (ownerId : Nat) (pr : Nat × Nat)
    (hmem : pr ∈ findImpreciseAlias member_bounds struct_member ownerId) :
    ∃ sub al alm, sub ∈ member_bounds ∧ al ∈ member_bounds ∧
      alm ∈ struct_member ∧ pr = (sub.id, al.id) ∧ alm.id = al.member ∧
      sub.owner = al.owner ∧ sub.owner = ownerId ∧ sub.id ≠ al.id ∧
      max sub.base al.offset <
        min sub.top
          (al.offset + alm.byte_size +
            (if alm.bit_size.getD 0 ≠ 0 then 1 else 0)) ∧
      (¬ ∃ t, sub.name.data = al.name.data ++ t) ∧
      (¬ ∃ t, al.name.data = sub.name.data ++ t) := by
  unfold findImpreciseAlias at hmem
  rw [List.mem_map] at hmem
  obtain ⟨r, hr, hpr⟩ := hmem
  rw [List.mem_filter] at hr
  obtain ⟨hview, howner⟩ := hr
  unfold aliasBoundsView at hview
  rw [List.mem_filter] at hview
  obtain ⟨himpl, hcond⟩ := hview
  unfold aliasBoundsImpl at himpl
  simp only [List.mem_flatMap, List.mem_map, List.mem_filter,
    Bool.and_eq_true, beq_iff_eq, bne_iff_ne] at himpl
  obtain ⟨alb, halb, alm, ⟨⟨halm, halmid⟩, mb, ⟨hmb, hmbo, hmbi⟩, hreq⟩⟩ := himpl
  subst hreq
  simp only [Bool.and_eq_true, Bool.not_eq_true', decide_eq_true_eq] at hcond
  obtain ⟨⟨hover, hlike1⟩, hlike2⟩ := hcond
  refine ⟨mb, alb, alm, hmb, halb, halm, ?_, halmid, hmbo, ?_, hmbi, ?_, ?_, ?_⟩
  · exact hpr.symm
  · have : (mb.owner == ownerId) = true := howner
    exact beq_iff_eq.mp this
  · rw [Nat.max_comm, Nat.min_comm, ← sqlTruthy_ite]
    exact hover
  · rintro ⟨t, ht⟩
    rw [ht, sqlLikeStartsWith_append] at hlike1
    exact Bool.noConfusion hlike1
  · rintro ⟨t, ht⟩
    rw [ht, sqlLikeStartsWith_append] at hlike2
    exact Bool.noConfusion hlike2

/-- Stored bounds row whose rounded capability spills over its
neighbour. -/
def mbRowSub : MemberBoundsTableRow :=
  { id := 1, owner := 7, name := "U::mis", member := 31, offset := 5,
    base := 0, top := 16, is_imprecise := true, precision := some 10 }

/-- Stored bounds row overlapped by mbRowSub's capability. -/
def mbRowAl : MemberBoundsTableRow :=
  { id := 2, owner := 7, name := "U::post", member := 32, offset := 8,
    base := 8, top := 12, is_imprecise := false, precision := some 1 }

/-- The struct_member row joined for mbRowAl. -/
def smRowAl : StructMemberRow := memberInt 32 "post" 8 4

/-- C6 witness: on a concrete pair of overlapping rows the query yields
the pair (1, 2) and the soundness theorem applies to it. -/
theorem C6_alias_pairs_sound_witness :
    ∃ sub al alm, sub ∈ [mbRowSub, mbRowAl] ∧ al ∈ [mbRowSub, mbRowAl] ∧
      alm ∈ [smRowAl] ∧ ((1 : Nat), (2 : Nat)) = (sub.id, al.id) ∧
      alm.id = al.member ∧
      sub.owner = al.owner ∧ sub.owner = 7 ∧ sub.id ≠ al.id ∧
      max sub.base al.offset <
        min sub.top
          (al.offset + alm.byte_size +
            (if alm.bit_size.getD 0 ≠ 0 then 1 else 0)) ∧
      (¬ ∃ t, sub.name.data = al.name.data ++ t) ∧
      (¬ ∃ t, al.name.data = sub.name.data ++ t) :=
  C6_alias_pairs_sound [mbRowSub, mbRowAl] [smRowAl] 7 (1, 2) (by decide)

/-- C8 counterexample: a record DIE that carries both DW_AT_declaration
and DW_AT_specification is skipped silently rather than failing, because
the declaration test comes first, refuting the claim that the fatal
error is raised exactly when DW_AT_specification is present. -/
theorem C8_counterexample_decl_and_spec :
    (RecordDie.mk true true (some 4)).specification = true ∧
    visitCommonOutcome (RecordDie.mk true true (some 4)) ≠
      VisitOutcome.fatalError := by
  decide

/-- C8 amended: VisitCommon fails fatally exactly when
DW_AT_specification is present and DW_AT_declaration is absent; it
returns no id when the DIE is a declaration or when, with neither
declaration nor specification present, DW_AT_byte_size is missing, the
latter with only a warning. -/
theorem C8_visit_guards (d : RecordDie) :
    (visitCommonOutcome d = VisitOutcome.fatalError ↔
      d.specification = true ∧ d.declaration = false) ∧
    ((visitCommonOutcome d = VisitOutcome.skipped ∨
        visitCommonOutcome d = VisitOutcome.skippedWithWarning) ↔
      (d.declaration = true ∨
        (d.declaration = false ∧ d.specification = false ∧
          d.byte_size = none))) ∧
    (visitCommonOutcome d = VisitOutcome.skippedWithWarning ↔
      (d.declaration = false ∧ d.specification = false ∧
        d.byte_size = none)) := by
  obtain ⟨dec, sp, bs⟩ := d
  cases dec <;> cases sp <;> cases bs <;> simp [visitCommonOutcome]

/-- C9: the private constructor sets the filter to kInfo whatever level
it receives, so Get and Default both produce loggers filtering at kInfo,
Get attaches no sink, and Emit dispatches nothing for kDebug and kTrace
messages on any freshly constructed logger. -/
theorem C9_logger_level_filter (lv : LogLevel) (msg : LogMessage) :
    (Logger.ctor lv).level_ = LogLevel.kInfo ∧
    (Logger.ctor lv).sinks_ = [] ∧
    Logger.Get.level_ = LogLevel.kInfo ∧
    Logger.Get.sinks_ = [] ∧
    Logger.Default.level_ = LogLevel.kInfo ∧
    (msg.level = LogLevel.kDebug ∨ msg.level = LogLevel.kTrace →
      Logger.Emit (Logger.ctor lv) msg = [] ∧
        Logger.Emit Logger.Default msg = []) := by
  refine ⟨rfl, rfl, rfl, rfl, rfl, ?_⟩
  obtain ⟨ml, mtext⟩ := msg
  rintro (rfl | rfl) <;> exact ⟨rfl, rfl⟩

/-- C9 witness: a kDebug message is discarded by the logger built with a
kTrace request, and Get has no sinks. -/
theorem C9_logger_level_filter_witness :
    Logger.Emit (Logger.ctor LogLevel.kTrace)
        (LogMessage.mk LogLevel.kDebug "m") = [] ∧
      Logger.Emit Logger.Default (LogMessage.mk LogLevel.kDebug "m") = [] :=
  (C9_logger_level_filter LogLevel.kTrace
    (LogMessage.mk LogLevel.kDebug "m")).2.2.2.2.2 (Or.inl rfl)

/-- Helper: appending to the empty string is the identity. -/
theorem string_empty_append (s : String) : "" ++ s = s := by
  cases s
  rfl

/-- C10: the handle's bool conversion yields false the first time and
true ever after, so the LOG macro's loop body runs exactly once and the
handle destructor passes the assembled message to Logger::Emit exactly
once. -/
theorem C10_log_handle_single_emit (lv : LogLevel) (body : String)
    (fuel : Nat) (h : LogAs) (hfuel : 2 ≤ fuel) :
    (LogAs.new lv).boolConv.1 = false ∧
    (h.boolConv.2).boolConv.1 = true ∧
    runLOG fuel lv body = (1, some (LogMessage.mk lv body)) := by
  obtain ⟨k, rfl⟩ := Nat.exists_eq_add_of_le hfuel
  refine ⟨rfl, by simp [LogAs.boolConv], ?_⟩
  have h2 : 2 + k = k + 2 := Nat.add_comm 2 k
  rw [h2]
  simp [runLOG, logMacroLoop, LogAs.new, LogAs.boolConv, LogAs.streamAppend,
    LogAs.emitOnDrop, string_empty_append]

/-- C10 witness: with fuel two the macro body runs once and exactly one
message reaches Emit. -/
theorem C10_log_handle_single_emit_witness :
    (2 : Nat) ≤ 2 ∧
      runLOG 2 LogLevel.kWarn "msg" =
        (1, some (LogMessage.mk LogLevel.kWarn "msg")) :=
  ⟨by decide,
    (C10_log_handle_single_emit LogLevel.kWarn "msg" 2
      (LogAs.new LogLevel.kInfo) (by decide)).2.2⟩

end CheriScan
